import Mathlib

/-!
Shallow embedding of the `liquidity-pool-rs` computational core.

Machine integers are modelled as `Nat` with explicit range guards:
`u64Bound = 2^64` and `u32Bound = 2^32`.  A Rust function that returns
`Result<T, Error>` but may additionally panic is modelled as
`RustResult T` with three outcomes: `ok`, `err` and `panicked`.
Unchecked primitive `u64`/`u32` arithmetic (which overflow-checks and
aborts in debug builds, and wraps in release builds) is modelled as
`panicked` on overflow/underflow, matching the checked-and-abort
semantics that the repository's `checked_add`/`checked_sub` + `panic`
amount operators use everywhere else.  The unit-tagged amount newtypes
(`TokenAmount`, `LpTokenAmount`, `StakedTokenAmount`) are transparent
wrappers around `u64`; they are flattened to `Nat` here, keeping their
conversion functions under the source names.
-/

def u64Bound : Nat := 18446744073709551616

def u32Bound : Nat := 4294967296

/-- `Fee` from `src/lp_pool/data/fee/mod.rs`: a bare basis-points value. -/
structure Fee where
  basis_points : Nat
deriving DecidableEq

/-- `Price` from `src/lp_pool/data/price/mod.rs`: a u64 storing real price x100. -/
structure Price where
  points : Nat
deriving DecidableEq

/-- `lp_pool::error::Error` from `src/lp_pool/error/mod.rs`. -/
inductive LpPoolError where
  | LiquidityTargetIncorrect (liquidity_target : Nat)
  | CalculationError (message : String)
  | PriceIncorrect (price : Price)
  | PriceConversionFailure (converted_from : String)
  | BasisPointsOverflow (basis_points : Nat)
  | MinFeeGreaterThanMaxFee (min max : Fee)
deriving DecidableEq

/-- Top-level `Error` from `src/error/mod.rs`. -/
inductive Error where
  | LpPool (e : LpPoolError)
  | CalculationError
deriving DecidableEq

/-- Outcome of a Rust computation: a `Result` value, or a panic/abort. -/
inductive RustResult (α : Type) where
  | ok (a : α)
  | err (e : Error)
  | panicked
deriving DecidableEq

def RustResult.bind {α β : Type} : RustResult α → (α → RustResult β) → RustResult β
  | .ok a, f => f a
  | .err e, _ => .err e
  | .panicked, _ => .panicked

/-- Primitive u64 addition: overflow aborts (debug assertion / checked panic). -/
def checked_add_u64 (a b : Nat) : RustResult Nat :=
  if a + b < u64Bound then .ok (a + b) else .panicked

/-- Primitive u64 subtraction: underflow aborts (debug assertion / checked panic). -/
def checked_sub_u64 (a b : Nat) : RustResult Nat :=
  if b ≤ a then .ok (a - b) else .panicked

/-- `calc::proportional`: amount * numerator / denominator through a u128
intermediate, with the denominator-zero escape and a u64 narrowing check. -/
def proportional (amount numerator denominator : Nat) : RustResult Nat :=
  if denominator = 0 then .ok amount
  else
    if amount * numerator / denominator < u64Bound then
      .ok (amount * numerator / denominator)
    else .err .CalculationError

/-- `calc::value_from_shares`: alias for `proportional`. -/
def value_from_shares (shares total_value total_shares : Nat) : RustResult Nat :=
  proportional shares total_value total_shares

def Fee.MAX_BASIS_POINTS : Nat := 10000

def Fee.from_basis_points (basis_points : Nat) : Fee :=
  { basis_points := basis_points }

/-- `Fee::check`: fails iff basis points exceed 10000. -/
def Fee.check (f : Fee) : RustResult Unit :=
  if f.basis_points > Fee.MAX_BASIS_POINTS then
    .err (.LpPool (.BasisPointsOverflow f.basis_points))
  else .ok ()

/-- `Fee::apply`: `lamports - lamports * basis_points / 10000`, where the fee
magnitude is narrowed from u128 to u64 (Err on failure) and the final u64
subtraction aborts on underflow. -/
def Fee.apply (f : Fee) (lamports : Nat) : RustResult Nat :=
  if lamports * f.basis_points / Fee.MAX_BASIS_POINTS < u64Bound then
    if lamports * f.basis_points / Fee.MAX_BASIS_POINTS ≤ lamports then
      .ok (lamports - lamports * f.basis_points / Fee.MAX_BASIS_POINTS)
    else .panicked
  else .err .CalculationError

def Price.from_points (points : Nat) : Price :=
  { points := points }

/-- `Price::try_from(u64)`: scale by 100 with a checked multiply. -/
def Price.try_from (price_without_scale : Nat) : RustResult Price :=
  if price_without_scale * 100 < u64Bound then
    .ok { points := price_without_scale * 100 }
  else .err (.LpPool (.PriceConversionFailure (toString price_without_scale)))

/-- `Price::mul_by_price`: u128 product narrowed to u64, aborting on failure. -/
def Price.mul_by_price (p : Price) (lamports : Nat) : RustResult Nat :=
  if lamports * p.points < u64Bound then .ok (lamports * p.points) else .panicked

/-- `Price::div_by_price`: u128 quotient (division by zero aborts) narrowed to u64. -/
def Price.div_by_price (p : Price) (lamports : Nat) : RustResult Nat :=
  if p.points = 0 then .panicked
  else if lamports / p.points < u64Bound then .ok (lamports / p.points)
  else .panicked

/-- `TokenAmount::from_staked_tokens`. -/
def TokenAmount.from_staked_tokens (staked_tokens : Nat) (price : Price) : RustResult Nat :=
  price.mul_by_price staked_tokens

/-- `StakedTokenAmount::from_tokens`. -/
def StakedTokenAmount.from_tokens (amount : Nat) (price : Price) : RustResult Nat :=
  price.div_by_price amount

/-- `LpTokenAmount::from_tokens`: identity on the raw amount. -/
def LpTokenAmount.from_tokens (amount : Nat) : Nat := amount

/-- Pool state from `src/lp_pool/mod.rs`, amounts flattened to `Nat`. -/
structure LpPool where
  price : Price
  token_amount : Nat
  staked_token_amount : Nat
  lp_token_amount : Nat
  liquidity_target : Nat
  min_fee : Fee
  max_fee : Fee
deriving DecidableEq

/-- `LpPool::init`: fee-order check, then zero-target check, then zero-price
check (against `Price::try_from(0)?`), then zero reserves. -/
def LpPool.init (price : Price) (min_fee max_fee : Fee) (liquidity_target : Nat) :
    RustResult LpPool :=
  if max_fee.basis_points < min_fee.basis_points then
    .err (.LpPool (.MinFeeGreaterThanMaxFee min_fee max_fee))
  else if liquidity_target = 0 then
    .err (.LpPool (.LiquidityTargetIncorrect liquidity_target))
  else
    (Price.try_from 0).bind fun zero =>
      if price = zero then .err (.LpPool (.PriceIncorrect price))
      else .ok { price := price, min_fee := min_fee, max_fee := max_fee,
                 liquidity_target := liquidity_target, token_amount := 0,
                 staked_token_amount := 0, lp_token_amount := 0 }

/-- `LpPool::calculate_fee`: min fee at/above target, otherwise
`max - proportional(max - min, amount, target)` with a saturating delta,
an unwrap on the proportional result, an `as u32` truncating cast and a
u32 subtraction (underflow aborts). -/
def LpPool.calculate_fee (pool : LpPool) (amount_after : Nat) : RustResult Fee :=
  if pool.liquidity_target ≤ amount_after then
    .ok (Fee.from_basis_points pool.min_fee.basis_points)
  else
    match proportional (pool.max_fee.basis_points - pool.min_fee.basis_points)
        amount_after pool.liquidity_target with
    | .ok p =>
        if p % u32Bound ≤ pool.max_fee.basis_points then
          .ok (Fee.from_basis_points (pool.max_fee.basis_points - p % u32Bound))
        else .panicked
    | _ => .panicked

/-- `LpPool::add_liquidity`.  The first addition is raw u64 `+`; the three
credits are checked-add-or-abort operators.  Returns the minted LP amount
together with the updated pool. -/
def LpPool.add_liquidity (pool : LpPool) (tokens_to_add : Nat) :
    RustResult (Nat × LpPool) :=
  (checked_add_u64 pool.token_amount tokens_to_add).bind fun token_amount_after =>
  (pool.calculate_fee token_amount_after).bind fun fee =>
  (fee.apply tokens_to_add).bind fun tokens_with_fee =>
  (checked_add_u64 pool.token_amount tokens_with_fee).bind fun new_token_amount =>
  (StakedTokenAmount.from_tokens tokens_with_fee pool.price).bind fun staked_delta =>
  (checked_add_u64 pool.staked_token_amount staked_delta).bind fun new_staked =>
  (checked_add_u64 pool.lp_token_amount (LpTokenAmount.from_tokens tokens_with_fee)).bind
    fun new_lp =>
  .ok (LpTokenAmount.from_tokens tokens_with_fee,
    { pool with token_amount := new_token_amount,
                staked_token_amount := new_staked,
                lp_token_amount := new_lp })

/-- `LpPool::remove_liquidity`.  The hypothetical reserve uses raw u64 `-`;
the three debits are checked-sub-or-abort operators.  Returns the fee-adjusted
token payout, its staked conversion, and the updated pool. -/
def LpPool.remove_liquidity (pool : LpPool) (lp_tokens_to_remove : Nat) :
    RustResult (Nat × Nat × LpPool) :=
  (value_from_shares lp_tokens_to_remove pool.token_amount pool.lp_token_amount).bind
    fun tokens_without_fee =>
  (checked_sub_u64 pool.token_amount tokens_without_fee).bind fun token_amount_after =>
  (pool.calculate_fee token_amount_after).bind fun fee =>
  (fee.apply tokens_without_fee).bind fun tokens_with_fee =>
  (StakedTokenAmount.from_tokens tokens_with_fee pool.price).bind fun unstaked_tokens =>
  (checked_sub_u64 pool.token_amount tokens_with_fee).bind fun new_token_amount =>
  (checked_sub_u64 pool.staked_token_amount unstaked_tokens).bind fun new_staked =>
  (checked_sub_u64 pool.lp_token_amount lp_tokens_to_remove).bind fun new_lp =>
  .ok (tokens_with_fee, unstaked_tokens,
    { pool with token_amount := new_token_amount,
                staked_token_amount := new_staked,
                lp_token_amount := new_lp })

/-- `LpPool::swap`.  The hypothetical reserve uses raw u64 `-` on the
price-multiplied value; the debit / credit use checked operators. -/
def LpPool.swap (pool : LpPool) (staked_tokens_to_swap : Nat) :
    RustResult (Nat × LpPool) :=
  (pool.price.mul_by_price staked_tokens_to_swap).bind fun value =>
  (checked_sub_u64 pool.token_amount value).bind fun token_amount_after =>
  (pool.calculate_fee token_amount_after).bind fun fee =>
  (TokenAmount.from_staked_tokens staked_tokens_to_swap pool.price).bind
    fun tokens_without_fee =>
  (fee.apply tokens_without_fee).bind fun tokens_with_fee =>
  (checked_sub_u64 pool.token_amount tokens_with_fee).bind fun new_token_amount =>
  (checked_add_u64 pool.staked_token_amount staked_tokens_to_swap).bind fun new_staked =>
  .ok (tokens_with_fee,
    { pool with token_amount := new_token_amount, staked_token_amount := new_staked })

/-! ### Helper lemmas -/

theorem RustResult.ok_bind {α β : Type} {a : α} {f : α → RustResult β} :
    (RustResult.ok a).bind f = f a := rfl

theorem RustResult.panicked_bind {α β : Type} {f : α → RustResult β} :
    (RustResult.panicked : RustResult α).bind f = .panicked := rfl

theorem RustResult.bind_eq_ok {α β : Type} {x : RustResult α} {f : α → RustResult β}
    {b : β} : x.bind f = .ok b ↔ ∃ a, x = .ok a ∧ f a = .ok b := by
  cases x <;> simp [RustResult.bind]

theorem checked_add_u64_eq_ok {a b c : Nat} :
    checked_add_u64 a b = .ok c ↔ a + b < u64Bound ∧ c = a + b := by
  unfold checked_add_u64
  split <;> simp_all [eq_comm]

theorem checked_sub_u64_eq_ok {a b c : Nat} :
    checked_sub_u64 a b = .ok c ↔ b ≤ a ∧ c = a - b := by
  unfold checked_sub_u64
  split <;> simp_all [eq_comm]

theorem mul_by_price_eq_ok {p : Price} {l c : Nat} :
    p.mul_by_price l = .ok c ↔ l * p.points < u64Bound ∧ c = l * p.points := by
  unfold Price.mul_by_price
  split <;> simp_all [eq_comm]

theorem div_by_price_eq_ok {p : Price} {l c : Nat} :
    p.div_by_price l = .ok c ↔ p.points ≠ 0 ∧ l / p.points < u64Bound ∧ c = l / p.points := by
  unfold Price.div_by_price
  split
  · simp_all
  · split <;> simp_all [eq_comm]

theorem fee_apply_eq_ok {f : Fee} {l c : Nat} :
    f.apply l = .ok c ↔
      l * f.basis_points / Fee.MAX_BASIS_POINTS < u64Bound ∧
      l * f.basis_points / Fee.MAX_BASIS_POINTS ≤ l ∧
      c = l - l * f.basis_points / Fee.MAX_BASIS_POINTS := by
  unfold Fee.apply
  split
  · split <;> simp_all [eq_comm]
  · simp_all

theorem fee_apply_le {f : Fee} {l c : Nat} (h : f.apply l = .ok c) : c ≤ l := by
  rw [fee_apply_eq_ok] at h
  exact h.2.2 ▸ Nat.sub_le _ _

/-- The interpolation term of the fee curve is bounded by the fee delta. -/
theorem fee_interp_le (mx mn a t : Nat) (h : a < t) : (mx - mn) * a / t ≤ mx - mn := by
  have ht : 0 < t := Nat.lt_of_le_of_lt (Nat.zero_le a) h
  calc (mx - mn) * a / t ≤ (mx - mn) * t / t :=
        Nat.div_le_div_right (Nat.mul_le_mul_left _ h.le)
    _ = mx - mn := Nat.mul_div_cancel _ ht

/-- `calculate_fee` never aborts when the maximum fee fits in u32, and computes
the linear interpolation formula of the specification. -/
theorem calculate_fee_spec (pool : LpPool) (a : Nat)
    (h32 : pool.max_fee.basis_points < u32Bound) :
    pool.calculate_fee a = .ok (Fee.from_basis_points
      (if pool.liquidity_target ≤ a then pool.min_fee.basis_points
       else pool.max_fee.basis_points -
         (pool.max_fee.basis_points - pool.min_fee.basis_points) * a /
           pool.liquidity_target)) := by
  by_cases hge : pool.liquidity_target ≤ a
  · unfold LpPool.calculate_fee
    simp only [if_pos hge]
  · have ha : a < pool.liquidity_target := Nat.lt_of_not_le hge
    have ht : pool.liquidity_target ≠ 0 :=
      Nat.pos_iff_ne_zero.mp (Nat.lt_of_le_of_lt (Nat.zero_le a) ha)
    have hle : (pool.max_fee.basis_points - pool.min_fee.basis_points) * a /
        pool.liquidity_target ≤ pool.max_fee.basis_points - pool.min_fee.basis_points :=
      fee_interp_le _ _ _ _ ha
    have hlt32 : (pool.max_fee.basis_points - pool.min_fee.basis_points) * a /
        pool.liquidity_target < u32Bound :=
      Nat.lt_of_le_of_lt (Nat.le_trans hle (Nat.sub_le _ _)) h32
    have hlt64 : (pool.max_fee.basis_points - pool.min_fee.basis_points) * a /
        pool.liquidity_target < u64Bound := by
      refine Nat.lt_of_lt_of_le hlt32 ?_
      unfold u32Bound u64Bound
      omega
    have hprop : proportional (pool.max_fee.basis_points - pool.min_fee.basis_points)
        a pool.liquidity_target = .ok
          ((pool.max_fee.basis_points - pool.min_fee.basis_points) * a /
            pool.liquidity_target) := by
      unfold proportional
      rw [if_neg ht, if_pos hlt64]
    unfold LpPool.calculate_fee
    simp only [if_neg hge, hprop, Nat.mod_eq_of_lt hlt32,
      if_pos (Nat.le_trans hle (Nat.sub_le _ _))]

/-- Success characterization of `add_liquidity`. -/
theorem add_liquidity_eq_ok {pool : LpPool} {t : Nat} {out : Nat × LpPool} :
    pool.add_liquidity t = .ok out ↔
      pool.token_amount + t < u64Bound ∧
      ∃ fee twf, pool.calculate_fee (pool.token_amount + t) = .ok fee ∧
        fee.apply t = .ok twf ∧
        pool.price.points ≠ 0 ∧
        twf / pool.price.points < u64Bound ∧
        pool.token_amount + twf < u64Bound ∧
        pool.staked_token_amount + twf / pool.price.points < u64Bound ∧
        pool.lp_token_amount + twf < u64Bound ∧
        out = (twf, { pool with
          token_amount := pool.token_amount + twf,
          staked_token_amount := pool.staked_token_amount + twf / pool.price.points,
          lp_token_amount := pool.lp_token_amount + twf }) := by
  unfold LpPool.add_liquidity
  simp only [RustResult.bind_eq_ok, checked_add_u64_eq_ok, StakedTokenAmount.from_tokens,
    div_by_price_eq_ok, LpTokenAmount.from_tokens, RustResult.ok.injEq]
  constructor
  · rintro ⟨a, ⟨h1, rfl⟩, fee, hfee, twf, happ, b, ⟨h2, rfl⟩, c, ⟨hp, h3, rfl⟩, d, ⟨h4, rfl⟩,
      e, ⟨h5, rfl⟩, rfl⟩
    exact ⟨h1, fee, twf, hfee, happ, hp, h3, h2, h4, h5, rfl⟩
  · rintro ⟨h1, fee, twf, hfee, happ, hp, h3, h2, h4, h5, rfl⟩
    exact ⟨_, ⟨h1, rfl⟩, fee, hfee, twf, happ, _, ⟨h2, rfl⟩, _, ⟨hp, h3, rfl⟩, _, ⟨h4, rfl⟩,
      _, ⟨h5, rfl⟩, rfl⟩

/-- Success characterization of `remove_liquidity`. -/
theorem remove_liquidity_eq_ok {pool : LpPool} {lp_rm : Nat} {out : Nat × Nat × LpPool} :
    pool.remove_liquidity lp_rm = .ok out ↔
      ∃ twf0 fee twf,
        value_from_shares lp_rm pool.token_amount pool.lp_token_amount = .ok twf0 ∧
        twf0 ≤ pool.token_amount ∧
        pool.calculate_fee (pool.token_amount - twf0) = .ok fee ∧
        fee.apply twf0 = .ok twf ∧
        pool.price.points ≠ 0 ∧
        twf / pool.price.points < u64Bound ∧
        twf ≤ pool.token_amount ∧
        twf / pool.price.points ≤ pool.staked_token_amount ∧
        lp_rm ≤ pool.lp_token_amount ∧
        out = (twf, twf / pool.price.points, { pool with
          token_amount := pool.token_amount - twf,
          staked_token_amount := pool.staked_token_amount - twf / pool.price.points,
          lp_token_amount := pool.lp_token_amount - lp_rm }) := by
  unfold LpPool.remove_liquidity
  simp only [RustResult.bind_eq_ok, checked_sub_u64_eq_ok, StakedTokenAmount.from_tokens,
    div_by_price_eq_ok, RustResult.ok.injEq]
  constructor
  · rintro ⟨twf0, hvfs, a, ⟨h1, rfl⟩, fee, hfee, twf, happ, c, ⟨hp, h3, rfl⟩, b, ⟨h2, rfl⟩,
      d, ⟨h4, rfl⟩, e, ⟨h5, rfl⟩, rfl⟩
    exact ⟨twf0, fee, twf, hvfs, h1, hfee, happ, hp, h3, h2, h4, h5, rfl⟩
  · rintro ⟨twf0, fee, twf, hvfs, h1, hfee, happ, hp, h3, h2, h4, h5, rfl⟩
    exact ⟨twf0, hvfs, _, ⟨h1, rfl⟩, fee, hfee, twf, happ, _, ⟨hp, h3, rfl⟩, _, ⟨h2, rfl⟩,
      _, ⟨h4, rfl⟩, _, ⟨h5, rfl⟩, rfl⟩

/-- Success characterization of `swap`. -/
theorem swap_eq_ok {pool : LpPool} {s : Nat} {out : Nat × LpPool} :
    pool.swap s = .ok out ↔
      ∃ fee twf,
        s * pool.price.points < u64Bound ∧
        s * pool.price.points ≤ pool.token_amount ∧
        pool.calculate_fee (pool.token_amount - s * pool.price.points) = .ok fee ∧
        fee.apply (s * pool.price.points) = .ok twf ∧
        twf ≤ pool.token_amount ∧
        pool.staked_token_amount + s < u64Bound ∧
        out = (twf, { pool with
          token_amount := pool.token_amount - twf,
          staked_token_amount := pool.staked_token_amount + s }) := by
  unfold LpPool.swap
  simp only [RustResult.bind_eq_ok, checked_sub_u64_eq_ok, checked_add_u64_eq_ok,
    TokenAmount.from_staked_tokens, mul_by_price_eq_ok, RustResult.ok.injEq]
  constructor
  · rintro ⟨v, ⟨hv, rfl⟩, a, ⟨h1, rfl⟩, fee, hfee, w, ⟨hw, rfl⟩, twf, happ, b, ⟨h2, rfl⟩,
      d, ⟨h3, rfl⟩, rfl⟩
    exact ⟨fee, twf, hv, h1, hfee, happ, h2, h3, rfl⟩
  · rintro ⟨fee, twf, hv, h1, hfee, happ, h2, h3, rfl⟩
    exact ⟨_, ⟨hv, rfl⟩, _, ⟨h1, rfl⟩, fee, hfee, _, ⟨hv, rfl⟩, twf, happ, _, ⟨h2, rfl⟩,
      _, ⟨h3, rfl⟩, rfl⟩

theorem RustResult.bind_eq_err {α β : Type} {x : RustResult α} {f : α → RustResult β}
    {e : Error} : x.bind f = .err e ↔ x = .err e ∨ ∃ a, x = .ok a ∧ f a = .err e := by
  cases x <;> simp [RustResult.bind]

theorem checked_add_u64_ne_err {a b : Nat} {e : Error} : checked_add_u64 a b ≠ .err e := by
  unfold checked_add_u64
  split <;> simp

theorem checked_sub_u64_ne_err {a b : Nat} {e : Error} : checked_sub_u64 a b ≠ .err e := by
  unfold checked_sub_u64
  split <;> simp

theorem mul_by_price_ne_err {p : Price} {l : Nat} {e : Error} :
    p.mul_by_price l ≠ .err e := by
  unfold Price.mul_by_price
  split <;> simp

theorem div_by_price_ne_err {p : Price} {l : Nat} {e : Error} :
    p.div_by_price l ≠ .err e := by
  unfold Price.div_by_price
  split
  · simp
  · split <;> simp

theorem calculate_fee_ne_err {pool : LpPool} {a : Nat} {e : Error} :
    pool.calculate_fee a ≠ .err e := by
  unfold LpPool.calculate_fee
  split
  · simp
  · split
    · split <;> simp
    · simp

theorem proportional_eq_err {a n d : Nat} {e : Error}
    (h : proportional a n d = .err e) : e = .CalculationError := by
  unfold proportional at h
  split at h
  · simp_all
  · split at h
    · simp_all
    · simp only [RustResult.err.injEq] at h
      exact h.symm

theorem value_from_shares_eq_err {shares total_value total_shares : Nat} {e : Error}
    (h : value_from_shares shares total_value total_shares = .err e) :
    e = .CalculationError :=
  proportional_eq_err h

theorem fee_apply_eq_err {f : Fee} {l : Nat} {e : Error}
    (h : f.apply l = .err e) : e = .CalculationError := by
  unfold Fee.apply at h
  split at h
  · split at h <;> simp_all
  · simp only [RustResult.err.injEq] at h
    exact h.symm

/-! ### Claim theorems -/

/-- C1: Scenario C end-to-end.  For a pool created with price of 2 points,
min fee 100 bp, max fee 1000 bp and liquidity target 10, `add_liquidity 200`
followed by `swap 50` returns 99 tokens from the swap and leaves the pool's
staked token amount equal to 149. -/
theorem c1_scenario_c_end_to_end :
    ((LpPool.init (Price.from_points 2) (Fee.from_basis_points 100)
        (Fee.from_basis_points 1000) 10).bind fun pool =>
      (pool.add_liquidity 200).bind fun r1 =>
      (r1.2.swap 50).bind fun r2 =>
      .ok (r2.1, r2.2.staked_token_amount)) = .ok (99, 149) := by
  decide

/-- C2: For every pool state whose maximum fee fits in u32 and every
`amount_after`, `calculate_fee` returns min fee basis points when
`amount_after` is at or above the liquidity target, and otherwise
`max - floor((max - min) * amount_after / liquidity_target)`, the linear
interpolation computed through the Proportional Calculator. -/
theorem c2_calculate_fee_formula (pool : LpPool) (amount_after : Nat)
    (h32 : pool.max_fee.basis_points < u32Bound) :
    pool.calculate_fee amount_after = .ok (Fee.from_basis_points
      (if pool.liquidity_target ≤ amount_after then pool.min_fee.basis_points
       else pool.max_fee.basis_points -
         (pool.max_fee.basis_points - pool.min_fee.basis_points) * amount_after /
           pool.liquidity_target)) :=
  calculate_fee_spec pool amount_after h32

/-- Witness for C2 at a concrete pool and reserve below target:
fee = 1000 - (1000 - 100) * 5 / 10 = 550 basis points. -/
theorem c2_witness :
    (⟨⟨2⟩, 198, 99, 198, 10, ⟨100⟩, ⟨1000⟩⟩ : LpPool).calculate_fee 5 =
      .ok (Fee.from_basis_points 550) :=
  (c2_calculate_fee_formula ⟨⟨2⟩, 198, 99, 198, 10, ⟨100⟩, ⟨1000⟩⟩ 5
    (by decide)).trans (by decide)

/-- C3: A successful `add_liquidity` computes the fee on the hypothetical
post-add reserve, deducts it from the contribution itself, returns the
post-fee amount as the minted LP tokens, and credits `lp_token_amount` by
exactly that post-fee amount. -/
theorem c3_add_liquidity_functional_spec (pool : LpPool) (tokens_to_add minted : Nat)
    (pool' : LpPool) (h : pool.add_liquidity tokens_to_add = .ok (minted, pool')) :
    ∃ fee, pool.calculate_fee (pool.token_amount + tokens_to_add) = .ok fee ∧
      fee.apply tokens_to_add = .ok minted ∧
      pool'.lp_token_amount = pool.lp_token_amount + minted := by
  rw [add_liquidity_eq_ok] at h
  obtain ⟨h1, fee, twf, hfee, happ, hp, h3, h2, h4, h5, hout⟩ := h
  simp only [Prod.mk.injEq] at hout
  obtain ⟨rfl, rfl⟩ := hout
  exact ⟨fee, hfee, happ, rfl⟩

/-- Witness for C3: scenario C's deposit of 200 mints 198 LP tokens. -/
theorem c3_witness :
    ∃ fee, (⟨⟨2⟩, 0, 0, 0, 10, ⟨100⟩, ⟨1000⟩⟩ : LpPool).calculate_fee
        ((⟨⟨2⟩, 0, 0, 0, 10, ⟨100⟩, ⟨1000⟩⟩ : LpPool).token_amount + 200) = .ok fee ∧
      fee.apply 200 = .ok 198 ∧
      (⟨⟨2⟩, 198, 99, 198, 10, ⟨100⟩, ⟨1000⟩⟩ : LpPool).lp_token_amount =
        (⟨⟨2⟩, 0, 0, 0, 10, ⟨100⟩, ⟨1000⟩⟩ : LpPool).lp_token_amount + 198 :=
  c3_add_liquidity_functional_spec ⟨⟨2⟩, 0, 0, 0, 10, ⟨100⟩, ⟨1000⟩⟩ 200 198
    ⟨⟨2⟩, 198, 99, 198, 10, ⟨100⟩, ⟨1000⟩⟩ (by decide)

/-- C4: A successful `remove_liquidity` computes the pro-rata share via
`value_from_shares`, applies the fee computed on the hypothetical
post-removal reserve, debits the token and staked reserves by the
fee-adjusted amounts, debits the LP supply by the full amount removed,
and returns the fee-adjusted tokens with their Price conversion. -/
theorem c4_remove_liquidity_functional_spec (pool : LpPool) (lp_tokens_to_remove twf u : Nat)
    (pool' : LpPool)
    (h : pool.remove_liquidity lp_tokens_to_remove = .ok (twf, u, pool')) :
    ∃ twf0 fee,
      value_from_shares lp_tokens_to_remove pool.token_amount pool.lp_token_amount =
        .ok twf0 ∧
      pool.calculate_fee (pool.token_amount - twf0) = .ok fee ∧
      fee.apply twf0 = .ok twf ∧
      pool.price.div_by_price twf = .ok u ∧
      pool'.token_amount = pool.token_amount - twf ∧
      pool'.staked_token_amount = pool.staked_token_amount - u ∧
      pool'.lp_token_amount = pool.lp_token_amount - lp_tokens_to_remove := by
  rw [remove_liquidity_eq_ok] at h
  obtain ⟨twf0, fee, twf', hvfs, h1, hfee, happ, hp, h3, h2, h4, h5, hout⟩ := h
  simp only [Prod.mk.injEq] at hout
  obtain ⟨rfl, rfl, rfl⟩ := hout
  refine ⟨twf0, fee, hvfs, hfee, happ, ?_, rfl, rfl, rfl⟩
  unfold Price.div_by_price
  rw [if_neg hp, if_pos h3]

/-- Witness for C4: removing 10 LP tokens from a pool holding 100 tokens,
1 staked token and 100 LP tokens (price 100 points, target 50) pays out
10 tokens and 0 staked tokens. -/
theorem c4_witness :
    ∃ twf0 fee,
      value_from_shares 10 (⟨⟨100⟩, 100, 1, 100, 50, ⟨10⟩, ⟨100⟩⟩ : LpPool).token_amount
        (⟨⟨100⟩, 100, 1, 100, 50, ⟨10⟩, ⟨100⟩⟩ : LpPool).lp_token_amount = .ok twf0 ∧
      (⟨⟨100⟩, 100, 1, 100, 50, ⟨10⟩, ⟨100⟩⟩ : LpPool).calculate_fee
        ((⟨⟨100⟩, 100, 1, 100, 50, ⟨10⟩, ⟨100⟩⟩ : LpPool).token_amount - twf0) = .ok fee ∧
      fee.apply twf0 = .ok 10 ∧
      (⟨⟨100⟩, 100, 1, 100, 50, ⟨10⟩, ⟨100⟩⟩ : LpPool).price.div_by_price 10 = .ok 0 ∧
      (⟨⟨100⟩, 90, 1, 90, 50, ⟨10⟩, ⟨100⟩⟩ : LpPool).token_amount =
        (⟨⟨100⟩, 100, 1, 100, 50, ⟨10⟩, ⟨100⟩⟩ : LpPool).token_amount - 10 ∧
      (⟨⟨100⟩, 90, 1, 90, 50, ⟨10⟩, ⟨100⟩⟩ : LpPool).staked_token_amount =
        (⟨⟨100⟩, 100, 1, 100, 50, ⟨10⟩, ⟨100⟩⟩ : LpPool).staked_token_amount - 0 ∧
      (⟨⟨100⟩, 90, 1, 90, 50, ⟨10⟩, ⟨100⟩⟩ : LpPool).lp_token_amount =
        (⟨⟨100⟩, 100, 1, 100, 50, ⟨10⟩, ⟨100⟩⟩ : LpPool).lp_token_amount - 10 :=
  c4_remove_liquidity_functional_spec ⟨⟨100⟩, 100, 1, 100, 50, ⟨10⟩, ⟨100⟩⟩ 10 10 0
    ⟨⟨100⟩, 90, 1, 90, 50, ⟨10⟩, ⟨100⟩⟩ (by decide)

/-- C5: `init` rejects `min_fee > max_fee`, then a zero liquidity target,
then a zero price, each with its dedicated error and checked in that order;
otherwise it succeeds with all three reserves at zero. -/
theorem c5_init_validation (price : Price) (min_fee max_fee : Fee) (liquidity_target : Nat) :
    (max_fee.basis_points < min_fee.basis_points →
      LpPool.init price min_fee max_fee liquidity_target =
        .err (.LpPool (.MinFeeGreaterThanMaxFee min_fee max_fee))) ∧
    (min_fee.basis_points ≤ max_fee.basis_points → liquidity_target = 0 →
      LpPool.init price min_fee max_fee liquidity_target =
        .err (.LpPool (.LiquidityTargetIncorrect liquidity_target))) ∧
    (min_fee.basis_points ≤ max_fee.basis_points → liquidity_target ≠ 0 →
      price.points = 0 →
      LpPool.init price min_fee max_fee liquidity_target =
        .err (.LpPool (.PriceIncorrect price))) ∧
    (min_fee.basis_points ≤ max_fee.basis_points → liquidity_target ≠ 0 →
      price.points ≠ 0 →
      LpPool.init price min_fee max_fee liquidity_target =
        .ok { price := price, min_fee := min_fee, max_fee := max_fee,
              liquidity_target := liquidity_target, token_amount := 0,
              staked_token_amount := 0, lp_token_amount := 0 }) := by
  have htf : Price.try_from 0 = .ok { points := 0 } := by
    unfold Price.try_from
    norm_num [u64Bound]
  obtain ⟨pp⟩ := price
  refine ⟨fun h => ?_, fun hm h0 => ?_, fun hm h0 hp => ?_, fun hm h0 hp => ?_⟩ <;>
    unfold LpPool.init
  · rw [if_pos h]
  · rw [if_neg (Nat.not_lt.mpr hm), if_pos h0]
  · rw [if_neg (Nat.not_lt.mpr hm), if_neg h0, htf]
    simp only [Price.mk.injEq] at hp ⊢
    show (if (⟨pp⟩ : Price) = ⟨0⟩ then _ else _) = _
    rw [if_pos (by simp [Price.mk.injEq, hp])]
  · rw [if_neg (Nat.not_lt.mpr hm), if_neg h0, htf]
    show (if (⟨pp⟩ : Price) = ⟨0⟩ then _ else _) = _
    rw [if_neg (by simp [Price.mk.injEq]; exact hp)]

/-- Witness for C5: a valid configuration yields a pool with zero reserves. -/
theorem c5_witness :
    LpPool.init (Price.from_points 2) (Fee.from_basis_points 100)
        (Fee.from_basis_points 1000) 10 =
      .ok { price := Price.from_points 2, min_fee := Fee.from_basis_points 100,
            max_fee := Fee.from_basis_points 1000, liquidity_target := 10,
            token_amount := 0, staked_token_amount := 0, lp_token_amount := 0 } :=
  (c5_init_validation (Price.from_points 2) (Fee.from_basis_points 100)
    (Fee.from_basis_points 1000) 10).2.2.2 (by decide) (by decide) (by decide)

/-- C6 counterexample: on the scenario-C pool state (198 tokens in reserve),
swapping 1000 staked tokens is worth 2000 tokens at the price, which exceeds
the reserve; the code hits an unchecked u64 underflow when forming the
hypothetical reserve and aborts instead of returning an error. -/
theorem c6_counterexample :
    (⟨⟨2⟩, 198, 99, 198, 10, ⟨100⟩, ⟨1000⟩⟩ : LpPool).swap 1000 = .panicked := by
  decide

/-- C6 (amended): the only errors the three pool operations return are the
CalculationError results of the checked u64-narrowing steps (the narrowing
in proportional/value_from_shares and in Fee::apply); overflow or underflow
at the unchecked u64 steps does not return an error but aborts the call
(a panic in debug builds; the raw u64 arithmetic wraps in release builds):
add_liquidity aborts when the hypothetical reserve overflows u64,
remove_liquidity aborts when the pro-rata share exceeds the token reserve,
and swap aborts when the staked value at the price overflows u64 or
exceeds the token reserve. -/
theorem c6_amended_failure_semantics :
    (∀ (pool : LpPool) (tokens_to_add : Nat),
      u64Bound ≤ pool.token_amount + tokens_to_add →
      pool.add_liquidity tokens_to_add = .panicked) ∧
    (∀ (pool : LpPool) (lp_tokens_to_remove twf0 : Nat),
      value_from_shares lp_tokens_to_remove pool.token_amount pool.lp_token_amount =
        .ok twf0 →
      pool.token_amount < twf0 →
      pool.remove_liquidity lp_tokens_to_remove = .panicked) ∧
    (∀ (pool : LpPool) (staked_tokens_to_swap : Nat),
      u64Bound ≤ staked_tokens_to_swap * pool.price.points →
      pool.swap staked_tokens_to_swap = .panicked) ∧
    (∀ (pool : LpPool) (staked_tokens_to_swap : Nat),
      staked_tokens_to_swap * pool.price.points < u64Bound →
      pool.token_amount < staked_tokens_to_swap * pool.price.points →
      pool.swap staked_tokens_to_swap = .panicked) ∧
    (∀ (pool : LpPool) (tokens_to_add : Nat) (e : Error),
      pool.add_liquidity tokens_to_add = .err e → e = .CalculationError) ∧
    (∀ (pool : LpPool) (lp_tokens_to_remove : Nat) (e : Error),
      pool.remove_liquidity lp_tokens_to_remove = .err e → e = .CalculationError) ∧
    (∀ (pool : LpPool) (staked_tokens_to_swap : Nat) (e : Error),
      pool.swap staked_tokens_to_swap = .err e → e = .CalculationError) := by
  refine ⟨?_, ?_, ?_, ?_, ?_, ?_, ?_⟩
  · intro pool t h
    unfold LpPool.add_liquidity
    rw [show checked_add_u64 pool.token_amount t = .panicked from by
      unfold checked_add_u64
      rw [if_neg (Nat.not_lt.mpr h)]]
    rfl
  · intro pool lp_rm twf0 hv hlt
    unfold LpPool.remove_liquidity
    rw [hv]
    simp only [RustResult.ok_bind]
    rw [show checked_sub_u64 pool.token_amount twf0 = .panicked from by
      unfold checked_sub_u64
      rw [if_neg (Nat.not_le.mpr hlt)]]
    rfl
  · intro pool s h
    unfold LpPool.swap
    rw [show pool.price.mul_by_price s = .panicked from by
      unfold Price.mul_by_price
      rw [if_neg (Nat.not_lt.mpr h)]]
    rfl
  · intro pool s h1 h2
    unfold LpPool.swap
    rw [show pool.price.mul_by_price s = .ok (s * pool.price.points) from by
      unfold Price.mul_by_price
      rw [if_pos h1]]
    simp only [RustResult.ok_bind]
    rw [show checked_sub_u64 pool.token_amount (s * pool.price.points) = .panicked from by
      unfold checked_sub_u64
      rw [if_neg (Nat.not_le.mpr h2)]]
    rfl
  · intro pool t e h
    unfold LpPool.add_liquidity at h
    simp only [RustResult.bind_eq_err] at h
    rcases h with h | ⟨a, ha, h⟩
    · exact absurd h checked_add_u64_ne_err
    rcases h with h | ⟨fee, hfee, h⟩
    · exact absurd h calculate_fee_ne_err
    rcases h with h | ⟨twf, htwf, h⟩
    · exact fee_apply_eq_err h
    rcases h with h | ⟨x, hx, h⟩
    · exact absurd h checked_add_u64_ne_err
    rcases h with h | ⟨y, hy, h⟩
    · exact absurd h div_by_price_ne_err
    rcases h with h | ⟨z, hz, h⟩
    · exact absurd h checked_add_u64_ne_err
    rcases h with h | ⟨w, hw, h⟩
    · exact absurd h checked_add_u64_ne_err
    exact RustResult.noConfusion h
  · intro pool lp_rm e h
    unfold LpPool.remove_liquidity at h
    simp only [RustResult.bind_eq_err] at h
    rcases h with h | ⟨twf0, htwf0, h⟩
    · exact value_from_shares_eq_err h
    rcases h with h | ⟨a, ha, h⟩
    · exact absurd h checked_sub_u64_ne_err
    rcases h with h | ⟨fee, hfee, h⟩
    · exact absurd h calculate_fee_ne_err
    rcases h with h | ⟨twf, htwf, h⟩
    · exact fee_apply_eq_err h
    rcases h with h | ⟨y, hy, h⟩
    · exact absurd h div_by_price_ne_err
    rcases h with h | ⟨x, hx, h⟩
    · exact absurd h checked_sub_u64_ne_err
    rcases h with h | ⟨z, hz, h⟩
    · exact absurd h checked_sub_u64_ne_err
    rcases h with h | ⟨w, hw, h⟩
    · exact absurd h checked_sub_u64_ne_err
    exact RustResult.noConfusion h
  · intro pool s e h
    unfold LpPool.swap at h
    simp only [RustResult.bind_eq_err] at h
    rcases h with h | ⟨v, hv, h⟩
    · exact absurd h mul_by_price_ne_err
    rcases h with h | ⟨a, ha, h⟩
    · exact absurd h checked_sub_u64_ne_err
    rcases h with h | ⟨fee, hfee, h⟩
    · exact absurd h calculate_fee_ne_err
    rcases h with h | ⟨w, hw, h⟩
    · exact absurd h mul_by_price_ne_err
    rcases h with h | ⟨twf, htwf, h⟩
    · exact fee_apply_eq_err h
    rcases h with h | ⟨x, hx, h⟩
    · exact absurd h checked_sub_u64_ne_err
    rcases h with h | ⟨y, hy, h⟩
    · exact absurd h checked_add_u64_ne_err
    exact RustResult.noConfusion h

/-- Witness for the amended C6: adding one token to a pool already holding
u64::MAX tokens aborts rather than returning an error. -/
theorem c6_witness :
    (⟨⟨2⟩, 18446744073709551615, 0, 0, 10, ⟨100⟩, ⟨1000⟩⟩ : LpPool).add_liquidity 1 =
      .panicked :=
  c6_amended_failure_semantics.1 ⟨⟨2⟩, 18446744073709551615, 0, 0, 10, ⟨100⟩, ⟨1000⟩⟩ 1
    (by decide)

/-- C7: for a pool with min fee at most max fee (max fitting in u32), the fee
curve returns exactly the min fee at or above the target, stays between min
and max below the target, and is monotonically decreasing in the reserve. -/
theorem c7_fee_curve_bounds_and_monotonicity (pool : LpPool)
    (hmm : pool.min_fee.basis_points ≤ pool.max_fee.basis_points)
    (h32 : pool.max_fee.basis_points < u32Bound) :
    (∀ a, pool.liquidity_target ≤ a →
      pool.calculate_fee a = .ok (Fee.from_basis_points pool.min_fee.basis_points)) ∧
    (∀ a f, a < pool.liquidity_target → pool.calculate_fee a = .ok f →
      pool.min_fee.basis_points ≤ f.basis_points ∧
      f.basis_points ≤ pool.max_fee.basis_points) ∧
    (∀ a1 a2 f1 f2, a1 ≤ a2 → pool.calculate_fee a1 = .ok f1 →
      pool.calculate_fee a2 = .ok f2 → f2.basis_points ≤ f1.basis_points) := by
  have hspec := fun a => calculate_fee_spec pool a h32
  refine ⟨fun a ha => ?_, fun a f ha hcf => ?_, fun a1 a2 f1 f2 h12 hc1 hc2 => ?_⟩
  · rw [hspec a, if_pos ha]
  · rw [hspec a] at hcf
    simp only [RustResult.ok.injEq] at hcf
    subst hcf
    rw [if_neg (Nat.not_le.mpr ha)]
    have hr := fee_interp_le pool.max_fee.basis_points pool.min_fee.basis_points a
      pool.liquidity_target ha
    simp only [Fee.from_basis_points]
    have hlo := Nat.sub_le_sub_left hr pool.max_fee.basis_points
    rw [Nat.sub_sub_self hmm] at hlo
    exact ⟨hlo, Nat.sub_le _ _⟩
  · rw [hspec a1] at hc1
    rw [hspec a2] at hc2
    simp only [RustResult.ok.injEq] at hc1 hc2
    subst hc1
    subst hc2
    simp only [Fee.from_basis_points]
    by_cases hb1 : pool.liquidity_target ≤ a1
    · rw [if_pos hb1, if_pos (Nat.le_trans hb1 h12)]
    · rw [if_neg hb1]
      have hr1 := fee_interp_le pool.max_fee.basis_points pool.min_fee.basis_points a1
        pool.liquidity_target (Nat.lt_of_not_le hb1)
      by_cases hb2 : pool.liquidity_target ≤ a2
      · rw [if_pos hb2]
        have hlo := Nat.sub_le_sub_left hr1 pool.max_fee.basis_points
        rw [Nat.sub_sub_self hmm] at hlo
        exact hlo
      · rw [if_neg hb2]
        exact Nat.sub_le_sub_left (Nat.div_le_div_right (Nat.mul_le_mul_left _ h12)) _

/-- Witness for C7: on the scenario-C pool, a reserve of 12 (above the target
of 10) yields exactly the min fee of 100 basis points. -/
theorem c7_witness :
    (⟨⟨2⟩, 198, 99, 198, 10, ⟨100⟩, ⟨1000⟩⟩ : LpPool).calculate_fee 12 =
      .ok (Fee.from_basis_points 100) :=
  (c7_fee_curve_bounds_and_monotonicity ⟨⟨2⟩, 198, 99, 198, 10, ⟨100⟩, ⟨1000⟩⟩
    (by decide) (by decide)).1 12 (by decide)

/-- C8: redeeming the entire LP supply is a pro-rata claim on the entire
token reserve: when `lp_token_amount` is nonzero,
`value_from_shares(L, T, L) = T` exactly, so a successful full removal pays
out `fee.apply(token_amount)` for the fee computed at the emptied reserve. -/
theorem c8_full_redemption_yields_reserve (pool : LpPool)
    (hL : pool.lp_token_amount ≠ 0) (hT : pool.token_amount < u64Bound) :
    value_from_shares pool.lp_token_amount pool.token_amount pool.lp_token_amount =
      .ok pool.token_amount ∧
    ∀ twf u pool', pool.remove_liquidity pool.lp_token_amount = .ok (twf, u, pool') →
      ∃ fee, pool.calculate_fee 0 = .ok fee ∧
        fee.apply pool.token_amount = .ok twf := by
  have hq : pool.lp_token_amount * pool.token_amount / pool.lp_token_amount =
      pool.token_amount :=
    Nat.mul_div_cancel_left pool.token_amount (Nat.pos_of_ne_zero hL)
  have hvfs : value_from_shares pool.lp_token_amount pool.token_amount
      pool.lp_token_amount = .ok pool.token_amount := by
    unfold value_from_shares proportional
    rw [if_neg hL, hq, if_pos hT]
  refine ⟨hvfs, fun twf u pool' h => ?_⟩
  rw [remove_liquidity_eq_ok] at h
  obtain ⟨twf0, fee, twf', hvfs', h1, hfee, happ, hp, h3, h2, h4, h5, hout⟩ := h
  rw [hvfs] at hvfs'
  simp only [RustResult.ok.injEq] at hvfs'
  subst hvfs'
  simp only [Prod.mk.injEq] at hout
  obtain ⟨rfl, rfl, rfl⟩ := hout
  rw [Nat.sub_self] at hfee
  exact ⟨fee, hfee, happ⟩

/-- Witness for C8 on the scenario-C pool state: the full LP supply of 198
is worth the full token reserve of 198. -/
theorem c8_witness :
    value_from_shares 198 198 198 = .ok 198 :=
  (c8_full_redemption_yields_reserve ⟨⟨2⟩, 198, 99, 198, 10, ⟨100⟩, ⟨1000⟩⟩
    (by decide) (by decide)).1

/-- C9: a successful deposit credits only the post-fee amount to all three
reserves; the deducted fee portion is retained nowhere, so the resulting
reserves are identical to those produced by depositing the post-fee amount
into the same pool configured with zero fees. -/
theorem c9_deposit_fee_not_retained (pool : LpPool) (tokens_to_add minted : Nat)
    (pool' : LpPool) (h : pool.add_liquidity tokens_to_add = .ok (minted, pool')) :
    pool'.token_amount = pool.token_amount + minted ∧
    pool'.staked_token_amount = pool.staked_token_amount + minted / pool.price.points ∧
    pool'.lp_token_amount = pool.lp_token_amount + minted ∧
    ∃ pool0', ({ pool with
        min_fee := Fee.from_basis_points 0,
        max_fee := Fee.from_basis_points 0 } : LpPool).add_liquidity minted =
          .ok (minted, pool0') ∧
      pool0'.token_amount = pool'.token_amount ∧
      pool0'.staked_token_amount = pool'.staked_token_amount ∧
      pool0'.lp_token_amount = pool'.lp_token_amount := by
  rw [add_liquidity_eq_ok] at h
  obtain ⟨h1, fee, twf, hfee, happ, hp, h3, h2, h4, h5, hout⟩ := h
  simp only [Prod.mk.injEq] at hout
  obtain ⟨rfl, rfl⟩ := hout
  refine ⟨rfl, rfl, rfl, ?_⟩
  have hcf0 : ({ pool with
      min_fee := Fee.from_basis_points 0,
      max_fee := Fee.from_basis_points 0 } : LpPool).calculate_fee
        (pool.token_amount + minted) = .ok (Fee.from_basis_points 0) := by
    rw [calculate_fee_spec _ _ (by norm_num [Fee.from_basis_points, u32Bound])]
    simp [Fee.from_basis_points]
  have happ0 : (Fee.from_basis_points 0).apply minted = .ok minted := by
    unfold Fee.apply
    simp [Fee.from_basis_points, Fee.MAX_BASIS_POINTS, u64Bound]
  refine ⟨_, add_liquidity_eq_ok.mpr ⟨h2, Fee.from_basis_points 0, minted, hcf0, happ0,
    hp, h3, h2, h4, h5, rfl⟩, rfl, rfl, rfl⟩

/-- Witness for C9: scenario C's deposit of 200 credits exactly the post-fee
198 to each reserve. -/
theorem c9_witness :
    (⟨⟨2⟩, 198, 99, 198, 10, ⟨100⟩, ⟨1000⟩⟩ : LpPool).token_amount =
      (⟨⟨2⟩, 0, 0, 0, 10, ⟨100⟩, ⟨1000⟩⟩ : LpPool).token_amount + 198 ∧
    (⟨⟨2⟩, 198, 99, 198, 10, ⟨100⟩, ⟨1000⟩⟩ : LpPool).staked_token_amount =
      (⟨⟨2⟩, 0, 0, 0, 10, ⟨100⟩, ⟨1000⟩⟩ : LpPool).staked_token_amount +
        198 / (⟨⟨2⟩, 0, 0, 0, 10, ⟨100⟩, ⟨1000⟩⟩ : LpPool).price.points ∧
    (⟨⟨2⟩, 198, 99, 198, 10, ⟨100⟩, ⟨1000⟩⟩ : LpPool).lp_token_amount =
      (⟨⟨2⟩, 0, 0, 0, 10, ⟨100⟩, ⟨1000⟩⟩ : LpPool).lp_token_amount + 198 ∧
    ∃ pool0', ((⟨⟨2⟩, 0, 0, 0, 10, ⟨0⟩, ⟨0⟩⟩ : LpPool).add_liquidity 198 =
          .ok (198, pool0')) ∧
      pool0'.token_amount = (⟨⟨2⟩, 198, 99, 198, 10, ⟨100⟩, ⟨1000⟩⟩ : LpPool).token_amount ∧
      pool0'.staked_token_amount =
        (⟨⟨2⟩, 198, 99, 198, 10, ⟨100⟩, ⟨1000⟩⟩ : LpPool).staked_token_amount ∧
      pool0'.lp_token_amount =
        (⟨⟨2⟩, 198, 99, 198, 10, ⟨100⟩, ⟨1000⟩⟩ : LpPool).lp_token_amount :=
  c9_deposit_fee_not_retained ⟨⟨2⟩, 0, 0, 0, 10, ⟨100⟩, ⟨1000⟩⟩ 200 198
    ⟨⟨2⟩, 198, 99, 198, 10, ⟨100⟩, ⟨1000⟩⟩ (by decide)

/-- C10: the pool's public interface never enforces the 10000-basis-point
cap: `Fee.check` rejects 20000 basis points, yet `init` accepts a
configuration with both fees at 20000 basis points. -/
theorem c10_basis_point_cap_not_enforced :
    Fee.check (Fee.from_basis_points 20000) =
      .err (.LpPool (.BasisPointsOverflow 20000)) ∧
    LpPool.init (Price.from_points 100) (Fee.from_basis_points 20000)
        (Fee.from_basis_points 20000) 10 =
      .ok { price := Price.from_points 100, min_fee := Fee.from_basis_points 20000,
            max_fee := Fee.from_basis_points 20000, liquidity_target := 10,
            token_amount := 0, staked_token_amount := 0, lp_token_amount := 0 } := by
  constructor
  · decide
  · decide
